import Mathlib

/-!
Verification of the orb-trackball firmware core (src/axes.c, src/usb.c,
src/main.c) against its natural-language specification.

The C sources are shallowly embedded below:

* `double` values carried by the axis accumulators are modelled as exact
  rationals (the spec calls them real-valued residuals); `modf` is the
  split into a toward-zero integer part (`truncQ`) and the fractional
  remainder.
* The C cast `(int16_t)` applied to an out-of-range value is modelled as
  two-complement wraparound (`toInt16`), the behaviour the design notes of
  the spec describe as silent wraparound on the target.
* `uint8_t` counters wrap modulo 256 where they are incremented.
* The SPI transactions of the SROM download are modelled as an explicit
  event trace.
-/

/-- Integer part of a rational, truncated toward zero, as computed by the
pair of outputs of C `modf`. -/
def truncQ (x : ℚ) : ℤ := if 0 ≤ x then ⌊x⌋ else ⌈x⌉

/-- Reinterpretation of an integer as a signed 16-bit value: reduction
modulo 2^16 into the interval [-32768, 32767]. -/
def toInt16 (z : ℤ) : ℤ := (z + 32768) % 65536 - 32768

/-- The signed 16-bit range. -/
def inRange16 (z : ℤ) : Prop := -32768 ≤ z ∧ z ≤ 32767

instance (z : ℤ) : Decidable (inRange16 z) := by
  unfold inRange16; infer_instance

/-- config.h: POINTER_SENSITIVITY 0.012, as an exact rational. -/
def POINTER_SENSITIVITY : ℚ := 0.012

/-- config.h: WHEEL_SENSITIVITY_X 0.35, as an exact rational. -/
def WHEEL_SENSITIVITY_X : ℚ := 0.35

/-- config.h: WHEEL_SENSITIVITY_Y 0.35, as an exact rational. -/
def WHEEL_SENSITIVITY_Y : ℚ := 0.35

/-- axes.c: the `static double axes[4]` accumulator array.  Index 0/1 are
the pointer axes, index 2/3 the wheel axes. -/
structure AxesState where
  a0 : ℚ
  a1 : ℚ
  a2 : ℚ
  a3 : ℚ
deriving DecidableEq

/-- axes.c `update_axes`: add the raw deltas to the accumulator pair
selected by the scroll flag (`axes[scroll * 2 + 0] += delta_x;
axes[scroll * 2 + 1] += delta_y;`). -/
def update_axes (delta_x delta_y : ℤ) (scroll : Bool) (s : AxesState) : AxesState :=
  if scroll then
    { s with a2 := s.a2 + delta_x, a3 := s.a3 + delta_y }
  else
    { s with a0 := s.a0 + delta_x, a1 := s.a1 + delta_y }

/-- Result of axes.c `get_axes`: the four reported deltas written through
`p`, the accumulator state left behind, and the returned boolean. -/
structure AxesReport where
  p0 : ℤ
  p1 : ℤ
  p2 : ℤ
  p3 : ℤ
  state : AxesState
  moved : Bool
deriving DecidableEq

/-- axes.c `get_axes`: scale each accumulator by its sensitivity (axis 1 is
flipped because the sensor is mounted upside-down), split with `modf`,
report the integer parts cast to `int16_t`, and store the fractional
remainders scaled back into raw units.  Returns true when any reported
delta is nonzero. -/
def get_axes (s : AxesState) : AxesReport :=
  let x := POINTER_SENSITIVITY * s.a0
  let y := POINTER_SENSITIVITY * (-s.a1)
  let xw := WHEEL_SENSITIVITY_X * s.a2
  let yw := WHEEL_SENSITIVITY_Y * s.a3
  { p0 := toInt16 (truncQ x),
    p1 := toInt16 (truncQ y),
    p2 := toInt16 (truncQ xw),
    p3 := toInt16 (truncQ yw),
    state :=
      { a0 := (x - truncQ x) / POINTER_SENSITIVITY,
        a1 := -((y - truncQ y) / POINTER_SENSITIVITY),
        a2 := (xw - truncQ xw) / WHEEL_SENSITIVITY_X,
        a3 := (yw - truncQ yw) / WHEEL_SENSITIVITY_Y },
    moved := (toInt16 (truncQ x) != 0) || (toInt16 (truncQ y) != 0) ||
             (toInt16 (truncQ xw) != 0) || (toInt16 (truncQ yw) != 0) }

/-- One axis of the accumulator, run over a list of per-tick raw deltas
(each tick is one `update_axes` of the delta into the axis followed by the
per-axis block of `get_axes`).  Returns the pre-cast integer parts reported
at each tick and the final residual; the value actually written through
`p` at a tick is `toInt16` of the listed integer part. -/
def runAxis (sens : ℚ) : ℚ → List ℤ → List ℤ × ℚ
  | r, [] => ([], r)
  | r, d :: ds =>
    let x := sens * (r + d)
    let i := truncQ x
    let rest := runAxis sens ((x - i) / sens) ds
    (i :: rest.1, rest.2)

/-- usb.c: the static debouncer state of
`CALLBACK_HID_Device_CreateHIDReport` (`old_buttons`, `new_buttons`,
`debounce_count`; all `uint8_t`). -/
structure DebState where
  old_buttons : ℕ
  new_buttons : ℕ
  debounce_count : ℕ
deriving DecidableEq

/-- config.h: DEBOUNCE_INTERVAL 5. -/
def DEBOUNCE_INTERVAL : ℕ := 5

/-- usb.c, debouncing part of `CALLBACK_HID_Device_CreateHIDReport`, for a
threshold `T` standing for DEBOUNCE_INTERVAL: given the freshly sampled
mask `b`, either start debouncing, extend or restart the count, or accept
the candidate.  The boolean is the early `return true` taken on
acceptance; `old_buttons` of the resulting state is the mask visible in
the report of this tick. -/
def debounce_step (T : ℕ) (s : DebState) (b : ℕ) : DebState × Bool :=
  if s.debounce_count = 0 then
    if b ≠ s.old_buttons then
      ({ s with new_buttons := b, debounce_count := 1 }, false)
    else
      (s, false)
  else
    let c := if b = s.new_buttons then (s.debounce_count + 1) % 256 else 1
    if c > T then
      ({ s with old_buttons := s.new_buttons, debounce_count := 0 }, true)
    else
      ({ s with debounce_count := c }, false)

/-- The debouncer folded over a list of raw per-tick samples. -/
def debFold (T : ℕ) (s : DebState) (bs : List ℕ) : DebState :=
  bs.foldl (fun t b => (debounce_step T t b).1) s

/-- A raw-sample sequence of length `n` oscillating between two mask
values on every consecutive poll, starting with `u`. -/
def altList (u w : ℕ) : ℕ → List ℕ
  | 0 => []
  | n + 1 => u :: altList w u n

/-- main.c: one decoded motion-burst poll result. -/
structure MotionSample where
  valid : Bool
  dx : ℤ
  dy : ℤ
deriving DecidableEq

/-- Two payload bytes at consecutive offsets reinterpreted as a signed
16-bit little-endian value (`*(int16_t *)(v + k)` on the little-endian
AVR target). -/
def int16FromLE (lo hi : ℕ) : ℤ := toInt16 (lo % 256 + 256 * (hi % 256))

/-- main.c, motion-burst decoding in the main loop: if the top bit of the
first status byte is clear the deltas are zero and nothing further is
read; otherwise the remaining payload is clocked in and the deltas are the
little-endian signed 16-bit fields at byte offsets 2-3 and 4-5. -/
def motion_burst_sample (status : ℕ) (v : ℕ → ℕ) : MotionSample :=
  if 0 < status &&& 0x80 then
    { valid := true, dx := int16FromLE (v 2) (v 3), dy := int16FromLE (v 4) (v 5) }
  else
    { valid := false, dx := 0, dy := 0 }

/-- config.h: RESOLUTION 16000. -/
def RESOLUTION : ℕ := 16000

/-- main.c: RESOLUTION_L register address 0x0e. -/
def RESOLUTION_L : ℕ := 0x0e

/-- main.c: RESOLUTION_H register address 0x0f. -/
def RESOLUTION_H : ℕ := 0x0f

/-- The sensor register file, as a map from register address to stored
byte; `write` stores the data byte at the addressed register. -/
def regWrite (regs : ℕ → ℕ) (addr v : ℕ) : ℕ → ℕ :=
  fun a => if a = addr then v % 256 else regs a

/-- `read` returns the byte stored at the addressed register. -/
def regRead (regs : ℕ → ℕ) (addr : ℕ) : ℕ := regs addr % 256

/-- main.c, resolution configuration: `uint16_t r = RESOLUTION / 50;`
followed by `write(RESOLUTION_L, r & 0xff); write(RESOLUTION_H, r >> 8 &
0xff);` for a resolution value `R`.  `r & 0xff` is `r % 256` and
`r >> 8 & 0xff` is `r / 256 % 256`. -/
def set_resolution (R : ℕ) (regs : ℕ → ℕ) : ℕ → ℕ :=
  let r := (R / 50) % 65536
  regWrite (regWrite regs RESOLUTION_L (r % 256)) RESOLUTION_H (r / 256 % 256)

/-- main.c, resolution readback: `(uint16_t)read(RESOLUTION_H) << 8 |
read(RESOLUTION_L)`. -/
def read_resolution (regs : ℕ → ℕ) : ℕ :=
  (regRead regs RESOLUTION_H) <<< 8 ||| regRead regs RESOLUTION_L

/-- One observable action on the sensor bus: chip-select assertion and
release, a busy-wait delay (in microseconds), or one byte exchange with
the given transmitted byte. -/
inductive BusEvent where
  | select : BusEvent
  | deselect : BusEvent
  | delay_us : ℚ → BusEvent
  | xfer : ℕ → BusEvent
deriving DecidableEq

/-- main.c: T_NCS_SCLK 0.12 microseconds. -/
def T_NCS_SCLK : ℚ := 0.12

/-- main.c: SROM_LOAD_BURST register address 0x62. -/
def SROM_LOAD_BURST : ℕ := 0x62

/-- main.c, body of the firmware download loop in `reset`: for every image
byte, in order, one fixed 15 microsecond pacing delay followed by one byte
exchange transmitting that byte. -/
def srom_burst_body : List ℕ → List BusEvent
  | [] => []
  | b :: rest => BusEvent.delay_us 15 :: BusEvent.xfer b :: srom_burst_body rest

/-- main.c, the SROM download transaction of `reset` (from `assert_ncs`
through `deassert_ncs`): select, settle, issue the firmware-load-burst
command with the write bit set, stream the image bytes with per-byte
pacing, then a trailing delay and deselect. -/
def srom_load_trace (data : List ℕ) : List BusEvent :=
  [BusEvent.select, BusEvent.delay_us T_NCS_SCLK,
   BusEvent.xfer (SROM_LOAD_BURST ||| 0x80)]
  ++ srom_burst_body data
  ++ [BusEvent.delay_us 15, BusEvent.deselect]

/-- The transmitted byte of an exchange event, if the event is one. -/
def xferByte : BusEvent → Option ℕ
  | BusEvent.xfer b => some b
  | _ => none

/-! ## Helper lemmas -/

lemma runAxis_nil (sens r : ℚ) : runAxis sens r [] = ([], r) := rfl

lemma runAxis_cons (sens r : ℚ) (d : ℤ) (ds : List ℤ) :
    runAxis sens r (d :: ds)
      = ((truncQ (sens * (r + d)))
           :: (runAxis sens ((sens * (r + d) - truncQ (sens * (r + d))) / sens) ds).1,
         (runAxis sens ((sens * (r + d) - truncQ (sens * (r + d))) / sens) ds).2) := rfl

lemma toInt16_of_inRange16 {z : ℤ} (h : inRange16 z) : toInt16 z = z := by
  obtain ⟨h1, h2⟩ := h
  unfold toInt16
  omega

lemma abs_sub_truncQ_lt_one (x : ℚ) : |x - truncQ x| < 1 := by
  unfold truncQ
  rcases le_or_lt 0 x with h | h
  · rw [if_pos h]
    have h1 := Int.floor_le x
    have h2 := Int.lt_floor_add_one x
    rw [abs_sub_lt_iff]
    constructor <;> linarith
  · rw [if_neg (not_le.mpr h)]
    have h1 := Int.le_ceil x
    have h2 := Int.ceil_lt_add_one x
    rw [abs_sub_lt_iff]
    constructor <;> linarith

lemma truncQ_eq_zero {x : ℚ} (h : |x| < 1) : truncQ x = 0 := by
  rw [abs_lt] at h
  unfold truncQ
  rcases le_or_lt 0 x with h0 | h0
  · rw [if_pos h0]
    exact Int.floor_eq_zero_iff.mpr ⟨h0, h.2⟩
  · rw [if_neg (not_le.mpr h0)]
    rw [Int.ceil_eq_zero_iff]
    exact ⟨by linarith, le_of_lt h0⟩

lemma runAxis_sum (sens : ℚ) (hs : sens ≠ 0) :
    ∀ (ds : List ℤ) (r : ℚ),
      (((runAxis sens r ds).1.sum : ℤ) : ℚ)
        = sens * r + sens * ((ds.sum : ℤ) : ℚ) - sens * (runAxis sens r ds).2 := by
  intro ds
  induction ds with
  | nil => intro r; simp [runAxis_nil]
  | cons d ds ih =>
    intro r
    rw [runAxis_cons]
    simp only [List.sum_cons, Int.cast_add]
    rw [ih]
    have hc : sens * ((sens * (r + d) - truncQ (sens * (r + d))) / sens)
        = sens * (r + d) - truncQ (sens * (r + d)) := by
      field_simp
    rw [hc]
    ring

lemma runAxis_residual (sens : ℚ) (hs : sens ≠ 0) :
    ∀ (ds : List ℤ) (r : ℚ), |sens * r| < 1 → |sens * (runAxis sens r ds).2| < 1 := by
  intro ds
  induction ds with
  | nil => intro r h; simpa [runAxis_nil] using h
  | cons d ds ih =>
    intro r h
    rw [runAxis_cons]
    apply ih
    have hc : sens * ((sens * (r + d) - truncQ (sens * (r + d))) / sens)
        = sens * (r + d) - truncQ (sens * (r + d)) := by
      field_simp
    rw [hc]
    exact abs_sub_truncQ_lt_one _

lemma debFold_nil (T : ℕ) (s : DebState) : debFold T s [] = s := rfl

lemma debFold_cons (T : ℕ) (s : DebState) (b : ℕ) (bs : List ℕ) :
    debFold T s (b :: bs) = debFold T (debounce_step T s b).1 bs := rfl

lemma debFold_append (T : ℕ) (s : DebState) (l1 l2 : List ℕ) :
    debFold T s (l1 ++ l2) = debFold T (debFold T s l1) l2 :=
  List.foldl_append _ _ _ _

lemma debounce_step_idle_eq (T A c : ℕ) :
    debounce_step T ⟨A, c, 0⟩ A = (⟨A, c, 0⟩, false) := by
  simp [debounce_step]

lemma debFold_idle (T A c n : ℕ) :
    debFold T ⟨A, c, 0⟩ (List.replicate n A) = ⟨A, c, 0⟩ := by
  induction n with
  | zero => rfl
  | succ n ih =>
    rw [List.replicate_succ, debFold_cons, debounce_step_idle_eq]
    exact ih

lemma debounce_step_start (T A c v : ℕ) (hv : v ≠ A) :
    debounce_step T ⟨A, c, 0⟩ v = (⟨A, v, 1⟩, false) := by
  simp [debounce_step, hv]

lemma debounce_step_count (T A v m : ℕ) (h0 : 1 ≤ m) (hlt : m + 1 ≤ T) (hT : T ≤ 254) :
    debounce_step T ⟨A, v, m⟩ v = (⟨A, v, m + 1⟩, false) := by
  have h1 : ¬ m = 0 := by omega
  have h2 : (m + 1) % 256 = m + 1 := Nat.mod_eq_of_lt (by omega)
  have h3 : ¬ (m + 1 > T) := by omega
  simp [debounce_step, h1, h2, h3]

lemma debounce_step_accept (T A v : ℕ) (h0 : 1 ≤ T) (hT : T ≤ 254) :
    debounce_step T ⟨A, v, T⟩ v = (⟨v, v, 0⟩, true) := by
  have h1 : ¬ T = 0 := by omega
  have h2 : (T + 1) % 256 = T + 1 := Nat.mod_eq_of_lt (by omega)
  have h3 : T + 1 > T := by omega
  simp [debounce_step, h1, h2, h3]

lemma debFold_count (T A v : ℕ) (hT : T ≤ 254) :
    ∀ (j m : ℕ), 1 ≤ m → m + j ≤ T →
      debFold T ⟨A, v, m⟩ (List.replicate j v) = ⟨A, v, m + j⟩ := by
  intro j
  induction j with
  | zero => intro m h1 h2; rfl
  | succ j ih =>
    intro m h1 h2
    rw [List.replicate_succ, debFold_cons,
      debounce_step_count T A v m h1 (by omega) hT]
    rw [ih (m + 1) (by omega) (by omega)]
    congr 1
    omega

lemma debFold_vphase (T A v c0 : ℕ) (hT1 : 1 ≤ T) (hT2 : T ≤ 254) (hv : v ≠ A) :
    ∀ k, debFold T ⟨A, c0, 0⟩ (List.replicate k v)
      = if k = 0 then ⟨A, c0, 0⟩ else if k ≤ T then ⟨A, v, k⟩ else ⟨v, v, 0⟩ := by
  intro k
  cases k with
  | zero => rfl
  | succ k =>
    rw [List.replicate_succ, debFold_cons, debounce_step_start T A c0 v hv]
    rcases le_or_lt (k + 1) T with hk | hk
    · rw [debFold_count T A v hT2 k 1 le_rfl (by omega)]
      have : ¬ (k + 1 = 0) := by omega
      rw [if_neg this, if_pos hk]
      congr 1
      omega
    · have hl : List.replicate k v
          = List.replicate (T - 1) v ++ (List.replicate 1 v ++ List.replicate (k - T) v) := by
        rw [← List.replicate_add, ← List.replicate_add]
        congr 1
        omega
      rw [hl, debFold_append,
        debFold_count T A v hT2 (T - 1) 1 le_rfl (by omega),
        show 1 + (T - 1) = T from by omega,
        debFold_append,
        show List.replicate 1 v = [v] from rfl,
        debFold_cons, debounce_step_accept T A v hT1 hT2, debFold_nil,
        debFold_idle]
      have h1 : ¬ (k + 1 = 0) := by omega
      have h2 : ¬ (k + 1 ≤ T) := by omega
      rw [if_neg h1, if_neg h2]

lemma debFold_alt (T : ℕ) (hT : 2 ≤ T) :
    ∀ (n u w : ℕ) (s : DebState), u ≠ w →
      (s.debounce_count ≤ 1 ∨ (s.debounce_count = 2 ∧ s.new_buttons ≠ u)) →
      (debFold T s (altList u w n)).old_buttons = s.old_buttons := by
  intro n
  induction n with
  | zero => intro u w s _ _; rfl
  | succ n ih =>
    intro u w s huw hinv
    rw [show altList u w (n + 1) = u :: altList w u n from rfl, debFold_cons]
    have key : (debounce_step T s u).1.old_buttons = s.old_buttons ∧
        ((debounce_step T s u).1.debounce_count ≤ 1 ∨
         ((debounce_step T s u).1.debounce_count = 2 ∧
          (debounce_step T s u).1.new_buttons ≠ w)) := by
      rcases hinv with hc | ⟨hc, hcand⟩
      · by_cases h0 : s.debounce_count = 0
        · by_cases hb : u = s.old_buttons
          · simp [debounce_step, h0, hb]
          · simp [debounce_step, h0, hb]
        · have h1 : s.debounce_count = 1 := by omega
          by_cases hb : u = s.new_buttons
          · have h2 : ¬ ((s.debounce_count + 1) % 256 > T) := by
              rw [h1]
              omega
            simp only [debounce_step, if_neg h0, if_pos hb, if_neg h2]
            constructor
            · simp
            · refine Or.inr ⟨?_, ?_⟩
              · show (s.debounce_count + 1) % 256 = 2
                rw [h1]
              · show s.new_buttons ≠ w
                rw [← hb]
                exact huw
          · have h2 : ¬ ((1 : ℕ) > T) := by omega
            simp only [debounce_step, if_neg h0, if_neg hb, if_neg h2]
            exact ⟨by simp, Or.inl (by simp)⟩
      · have h0 : ¬ s.debounce_count = 0 := by omega
        have hb : ¬ (u = s.new_buttons) := fun h => hcand h.symm
        have h2 : ¬ ((1 : ℕ) > T) := by omega
        simp only [debounce_step, if_neg h0, if_neg hb, if_neg h2]
        exact ⟨by simp, Or.inl (by simp)⟩
    rw [ih w u (debounce_step T s u).1 (Ne.symm huw) key.2, key.1]

lemma shiftLeft8_lor_eq_add (a b : ℕ) (hb : b < 256) : (a <<< 8) ||| b = a * 256 + b := by
  have h : a <<< 8 = a * 256 := by rw [Nat.shiftLeft_eq]
  rw [h]
  apply Nat.eq_of_testBit_eq
  intro i
  rw [Nat.testBit_lor]
  rcases Nat.lt_or_ge i 8 with hi | hi
  · have h1 : (a * 256 + b).testBit i = ((a * 256 + b) % 2 ^ 8).testBit i := by
      rw [Nat.testBit_mod_two_pow, decide_eq_true hi, Bool.true_and]
    have h2 : (a * 256 + b) % 2 ^ 8 = b := by
      have he : (2 : ℕ) ^ 8 = 256 := by norm_num
      rw [he]
      omega
    have h3 : (a * 256).testBit i = false := by
      rw [← h, Nat.testBit_shiftLeft]
      simp only [ge_iff_le, Bool.and_eq_false_imp]
      intro hle
      exact absurd (of_decide_eq_true hle) (Nat.not_le.mpr hi)
    rw [h1, h2, h3, Bool.false_or]
  · have h1 : b.testBit i = false := by
      apply Nat.testBit_lt_two_pow
      calc b < 256 := hb
        _ = 2 ^ 8 := by norm_num
        _ ≤ 2 ^ i := Nat.pow_le_pow_right (by norm_num) hi
    have h2 : (a * 256).testBit i = a.testBit (i - 8) := by
      rw [← h, Nat.testBit_shiftLeft, decide_eq_true hi, Bool.true_and]
    have h3 : (a * 256 + b).testBit i = a.testBit (i - 8) := by
      rw [Nat.testBit_to_div_mod, Nat.testBit_to_div_mod]
      have hdiv : (a * 256 + b) / 2 ^ i = a / 2 ^ (i - 8) := by
        have h256 : (2 : ℕ) ^ i = 256 * 2 ^ (i - 8) := by
          have he : (256 : ℕ) = 2 ^ 8 := by norm_num
          rw [he, ← Nat.pow_add]
          congr 1
          omega
        rw [h256, ← Nat.div_div_eq_div_mul]
        congr 1
        rw [Nat.add_comm, Nat.add_mul_div_right _ _ (by norm_num : (0 : ℕ) < 256)]
        rw [Nat.div_eq_of_lt hb]
        omega
      rw [hdiv]
    rw [h3, h2, h1, Bool.or_false]

lemma srom_burst_body_get (data : List ℕ) :
    ∀ k, (srom_burst_body data)[2 * k]?
        = (data[k]?).map (fun _ => BusEvent.delay_us 15) ∧
      (srom_burst_body data)[2 * k + 1]? = (data[k]?).map BusEvent.xfer := by
  induction data with
  | nil => intro k; simp [srom_burst_body]
  | cons b rest ih =>
    intro k
    cases k with
    | zero => simp [srom_burst_body]
    | succ k =>
      rw [show srom_burst_body (b :: rest)
          = BusEvent.delay_us 15 :: BusEvent.xfer b :: srom_burst_body rest from rfl]
      constructor
      · rw [show 2 * (k + 1) = 2 * k + 1 + 1 from by ring]
        rw [List.getElem?_cons_succ, List.getElem?_cons_succ, List.getElem?_cons_succ]
        exact (ih k).1
      · rw [show 2 * (k + 1) + 1 = (2 * k + 1) + 1 + 1 from by ring]
        rw [List.getElem?_cons_succ, List.getElem?_cons_succ, List.getElem?_cons_succ]
        exact (ih k).2

/-! ## Claim theorems -/

/-- Claim C1 (amended): for any nonzero sensitivity, one tick of the
program (one `update_axes` followed by the per-axis block of `get_axes`)
is exactly one step of `runAxis`; at every tick whose truncated scaled
value fits the signed 16-bit range the reported delta plus the residual
after the tick (in output units) equals the sensitivity times the raw
input plus the residual before the tick; and over any delta sequence
whose ticks all fit that range, the total reported motion equals the
truncated scaled total raw motion within one unit.  As literally stated
the claim fails when a tick overflows the 16-bit range, because the
report then wraps: see the counterexample. -/
theorem C1_accumulator_invariant (sens : ℚ) (hs : sens ≠ 0) (ds : List ℤ)
    (hR : ∀ i ∈ (runAxis sens 0 ds).1, inRange16 i) :
    (∀ (s : AxesState) (d : ℤ),
        (get_axes (update_axes d 0 false s)).p0
          = toInt16 (truncQ (POINTER_SENSITIVITY * (s.a0 + d))) ∧
        (get_axes (update_axes d 0 false s)).state.a0
          = (POINTER_SENSITIVITY * (s.a0 + d)
             - truncQ (POINTER_SENSITIVITY * (s.a0 + d))) / POINTER_SENSITIVITY) ∧
    (∀ (r : ℚ) (d : ℤ), inRange16 (truncQ (sens * (r + d))) →
        ((toInt16 (truncQ (sens * (r + d)))) : ℚ)
            + sens * ((sens * (r + d) - truncQ (sens * (r + d))) / sens)
          = sens * (d : ℚ) + sens * r) ∧
    |((runAxis sens 0 ds).1.map toInt16).sum - truncQ (sens * ((ds.sum : ℤ) : ℚ))| ≤ 1 := by
  refine ⟨fun s d => ⟨rfl, rfl⟩, ?_, ?_⟩
  · intro r d h
    rw [toInt16_of_inRange16 h]
    have hc : sens * ((sens * (r + d) - truncQ (sens * (r + d))) / sens)
        = sens * (r + d) - truncQ (sens * (r + d)) := by
      field_simp
    rw [hc]
    ring
  · have hmap : (runAxis sens 0 ds).1.map toInt16 = (runAxis sens 0 ds).1 := by
      have := List.map_congr_left (f := toInt16) (g := id)
        (l := (runAxis sens 0 ds).1) (fun a ha => toInt16_of_inRange16 (hR a ha))
      simpa using this
    rw [hmap]
    have h1 := runAxis_sum sens hs ds 0
    have h2 := runAxis_residual sens hs ds 0 (by simp)
    have h3 := abs_sub_truncQ_lt_one (sens * ((ds.sum : ℤ) : ℚ))
    rw [abs_lt] at h2 h3
    have key : |(((runAxis sens 0 ds).1.sum
        - truncQ (sens * ((ds.sum : ℤ) : ℚ)) : ℤ) : ℚ)| < 2 := by
      rw [Int.cast_sub, h1, abs_lt]
      constructor <;> linarith [h2.1, h2.2, h3.1, h3.2]
    have key2 : |(runAxis sens 0 ds).1.sum
        - truncQ (sens * ((ds.sum : ℤ) : ℚ))| < 2 := by
      exact_mod_cast key
    rw [abs_lt] at key2
    rw [abs_le]
    omega

/-- Witness for C1 at sensitivity 1 and delta sequence [1]: the
hypotheses hold and the reported total is within one unit of the
truncated scaled total. -/
theorem C1_accumulator_invariant_witness :
    ((1 : ℚ) ≠ 0) ∧ (∀ i ∈ (runAxis (1 : ℚ) 0 [1]).1, inRange16 i) ∧
    |((runAxis (1 : ℚ) 0 [1]).1.map toInt16).sum
        - truncQ ((1 : ℚ) * ((([1] : List ℤ).sum : ℤ) : ℚ))| ≤ 1 := by
  have hs : (1 : ℚ) ≠ 0 := by norm_num
  have hR : ∀ i ∈ (runAxis (1 : ℚ) 0 [1]).1, inRange16 i := by
    have he : (runAxis (1 : ℚ) 0 [1]).1 = [1] := by
      rw [runAxis_cons]
      norm_num [runAxis_nil, truncQ]
    rw [he]
    intro i hi
    simp only [List.mem_singleton] at hi
    subst hi
    decide
  exact ⟨hs, hR, (C1_accumulator_invariant 1 hs [1] hR).2.2⟩

/-- Counterexample to C1 as stated: four maximal raw wheel deltas
accumulated between two reports make the truncated scaled value 45873,
which overflows the signed 16-bit report; the tick reports the wrapped
value -19663 and the tick equation
reported + residual-after = sensitivity * raw + residual-before fails, so
motion is dropped rather than deferred. -/
theorem C1_accumulator_invariant_counterexample :
    let s := update_axes 32767 0 true (update_axes 32767 0 true
      (update_axes 32767 0 true (update_axes 32767 0 true ⟨0, 0, 0, 0⟩)))
    s.a2 = 131068 ∧ (get_axes s).p2 = -19663 ∧
    ¬ (((get_axes s).p2 : ℚ) + WHEEL_SENSITIVITY_X * (get_axes s).state.a2
         = WHEEL_SENSITIVITY_X * s.a2) := by
  norm_num [get_axes, update_axes, WHEEL_SENSITIVITY_X, truncQ, toInt16]

/-- Claim C2 (amended): for every debounce threshold T with
1 ≤ T ≤ 254, from an idle debouncer holding accepted mask A, a raw mask
that stays at A for m polls, flips once to v and then holds v changes the
visible stable mask exactly once, on the poll at which the (T+1)-th
consecutive consistent sample of v is observed (where the acceptance flag
is raised), and never earlier.  As literally stated the claim fails for
T = 0 (acceptance happens on the second consistent sample, not the
first), and for T ≥ 255 the 8-bit counter wraps and acceptance never
happens: see the counterexample. -/
theorem C2_debounce_flip_once (T A v c0 m : ℕ)
    (hT1 : 1 ≤ T) (hT2 : T ≤ 254) (hv : v ≠ A) :
    (∀ j, (debFold T ⟨A, c0, 0⟩ (List.replicate j A)).old_buttons = A) ∧
    (∀ k, (debFold T ⟨A, c0, 0⟩
        (List.replicate m A ++ List.replicate k v)).old_buttons
      = if k ≤ T then A else v) ∧
    (debounce_step T
        (debFold T ⟨A, c0, 0⟩ (List.replicate m A ++ List.replicate T v)) v).2
      = true := by
  refine ⟨?_, ?_, ?_⟩
  · intro j
    rw [debFold_idle]
  · intro k
    rw [debFold_append, debFold_idle, debFold_vphase T A v c0 hT1 hT2 hv]
    rcases Nat.eq_zero_or_pos k with hk | hk
    · subst hk
      rw [if_pos rfl, if_pos (by omega)]
    · rw [if_neg (by omega)]
      rcases le_or_lt k T with h | h
      · rw [if_pos h, if_pos h]
      · rw [if_neg (by omega), if_neg (by omega)]
  · rw [debFold_append, debFold_idle, debFold_vphase T A v c0 hT1 hT2 hv]
    rw [if_neg (by omega), if_pos le_rfl]
    rw [debounce_step_accept T A v hT1 hT2]

/-- Witness for C2 at the configured threshold 5: after two polls at rest
and six consistent samples of the new mask the visible mask has
changed. -/
theorem C2_debounce_flip_once_witness :
    ((1 : ℕ) ≤ 5 ∧ (5 : ℕ) ≤ 254 ∧ (1 : ℕ) ≠ 0) ∧
    (debFold 5 ⟨0, 0, 0⟩ (List.replicate 2 0 ++ List.replicate 6 1)).old_buttons
      = if 6 ≤ 5 then 0 else 1 :=
  ⟨⟨by decide, by decide, by decide⟩,
   (C2_debounce_flip_once 5 0 1 0 2 (by decide) (by decide) (by decide)).2.1 6⟩

/-- Counterexample to C2 as stated for threshold T = 0: after exactly
T + 1 = 1 consistent sample of the new mask 1 the visible mask has not
changed (the code only accepts on the second consistent sample when
T = 0, because the acceptance test is skipped on the poll that starts
debouncing). -/
theorem C2_debounce_flip_once_counterexample :
    (debFold 0 ⟨0, 0, 0⟩ (List.replicate 1 1)).old_buttons ≠ 1 := by
  decide

set_option maxRecDepth 8192 in
/-- Claim C3 (code bug): when the debouncer is mid-debounce with
candidate 1 and the new sample is 2, the code only resets the counter and
leaves the stale candidate recorded, contrary to the claimed restart with
the new sample; consequently a sample value held stably for 100
consecutive polls (far beyond the threshold of 5) is never accepted. -/
theorem C3_candidate_not_replaced :
    (debounce_step DEBOUNCE_INTERVAL ⟨0, 1, 1⟩ 2).1.new_buttons = 1 ∧
    (debounce_step DEBOUNCE_INTERVAL ⟨0, 1, 1⟩ 2).1.new_buttons ≠ 2 ∧
    (debFold DEBOUNCE_INTERVAL ⟨0, 1, 1⟩ (List.replicate 100 2)).old_buttons = 0 ∧
    (debFold DEBOUNCE_INTERVAL ⟨0, 1, 1⟩ (List.replicate 100 2)).new_buttons = 1 := by
  decide

/-- Claim C4: if the top bit of the first motion-burst status byte is
clear, the poll reports an invalid sample with zero deltas, independent
of the remaining payload bytes; if it is set, the deltas are the signed
16-bit little-endian fields at payload byte offsets 2-3 and 4-5. -/
theorem C4_motion_gate (status : ℕ) (v v2 : ℕ → ℕ) :
    (status &&& 0x80 = 0 →
      motion_burst_sample status v = ⟨false, 0, 0⟩ ∧
      motion_burst_sample status v = motion_burst_sample status v2) ∧
    (status &&& 0x80 ≠ 0 →
      motion_burst_sample status v
        = ⟨true, int16FromLE (v 2) (v 3), int16FromLE (v 4) (v 5)⟩) := by
  constructor
  · intro h
    have h0 : ¬ (0 < status &&& 0x80) := by omega
    constructor <;> simp [motion_burst_sample, h0]
  · intro h
    have h0 : 0 < status &&& 0x80 := by omega
    simp [motion_burst_sample, h0]

/-- Witness for C4: a cleared status byte yields the invalid zero sample,
and a status byte with the top bit set yields the extracted deltas. -/
theorem C4_motion_gate_witness :
    ((0 : ℕ) &&& 0x80 = 0 ∧ motion_burst_sample 0 (fun _ => 7) = ⟨false, 0, 0⟩) ∧
    ((128 : ℕ) &&& 0x80 ≠ 0 ∧ motion_burst_sample 128 (fun i => i)
       = ⟨true, int16FromLE 2 3, int16FromLE 4 5⟩) :=
  ⟨⟨by decide, ((C4_motion_gate 0 (fun _ => 7) (fun _ => 7)).1 (by decide)).1⟩,
   ⟨by decide, (C4_motion_gate 128 (fun i => i) (fun i => i)).2 (by decide)⟩⟩

/-- Claim C5 (amended): for every debounce threshold T ≥ 2, a raw mask
that oscillates between two distinct values on every consecutive poll
never changes the visible stable mask of an initially idle debouncer.  As
literally stated the claim fails for T ≤ 1: see the counterexample. -/
theorem C5_oscillation_never_accepts (T u w A c0 n : ℕ)
    (hT : 2 ≤ T) (huw : u ≠ w) :
    (debFold T ⟨A, c0, 0⟩ (altList u w n)).old_buttons = A :=
  debFold_alt T hT n u w ⟨A, c0, 0⟩ huw (Or.inl (by simp))

/-- Witness for C5: oscillating between masks 1 and 2 for five polls at
threshold 2 leaves the visible mask at 0. -/
theorem C5_oscillation_never_accepts_witness :
    ((2 : ℕ) ≤ 2 ∧ (1 : ℕ) ≠ 2) ∧
    (debFold 2 ⟨0, 0, 0⟩ (altList 1 2 5)).old_buttons = 0 :=
  ⟨⟨by decide, by decide⟩,
   C5_oscillation_never_accepts 2 1 2 0 0 5 (by decide) (by decide)⟩

/-- Counterexample to C5 as stated: at threshold T = 1 the oscillating
sequence 1, 2, 1 changes the visible mask (the matching samples two polls
apart push the counter past the threshold). -/
theorem C5_oscillation_never_accepts_counterexample :
    (debFold 1 ⟨0, 0, 0⟩ (altList 1 2 3)).old_buttons ≠ 0 := by
  decide

/-- Claim C6 (amended): each tick each axis emits the integer part of its
scaled accumulated motion truncated toward zero and reduced into the
signed 16-bit range by two-complement wraparound; whenever that integer
part lies in the range it is emitted exactly.  Out-of-range values wrap,
they are not clamped to the nearest bound: see the counterexample. -/
theorem C6_report_wraps (s : AxesState) :
    (get_axes s).p0 = toInt16 (truncQ (POINTER_SENSITIVITY * s.a0)) ∧
    (get_axes s).p1 = toInt16 (truncQ (POINTER_SENSITIVITY * (-s.a1))) ∧
    (get_axes s).p2 = toInt16 (truncQ (WHEEL_SENSITIVITY_X * s.a2)) ∧
    (get_axes s).p3 = toInt16 (truncQ (WHEEL_SENSITIVITY_Y * s.a3)) ∧
    (∀ z : ℤ, inRange16 z → toInt16 z = z) :=
  ⟨rfl, rfl, rfl, rfl, fun _ h => toInt16_of_inRange16 h⟩

/-- Witness for C6: an in-range value passes through unchanged. -/
theorem C6_report_wraps_witness : inRange16 5 ∧ toInt16 5 = 5 :=
  ⟨by decide, (C6_report_wraps ⟨0, 0, 0, 0⟩).2.2.2.2 5 (by decide)⟩

/-- Counterexample to C6 as stated: a wheel accumulation of 131070 scales
to truncated integer part 45874, outside the 16-bit range; the emitted
delta is the wrapped value -19662, not the claimed nearest bound
32767. -/
theorem C6_report_wraps_counterexample :
    let s := update_axes 32767 0 true (update_axes 32767 0 true
      (update_axes 32767 0 true (update_axes 32767 0 true ⟨0, 1, 2, 3⟩)))
    truncQ (WHEEL_SENSITIVITY_X * s.a2) = 45874 ∧
    ¬ inRange16 (truncQ (WHEEL_SENSITIVITY_X * s.a2)) ∧
    (get_axes s).p2 = -19662 ∧ (get_axes s).p2 ≠ 32767 := by
  norm_num [get_axes, update_axes, WHEEL_SENSITIVITY_X, truncQ, toInt16, inRange16]

/-- Claim C7: writing any resolution R that is a multiple of 50 with
R / 50 a 16-bit value stores its low byte in the low register and its
high byte in the high register, and reading both back and recombining
them as high shifted left by eight or-ed with low reconstructs R / 50
exactly. -/
theorem C7_resolution_roundtrip (R : ℕ) (regs : ℕ → ℕ)
    (hdvd : 50 ∣ R) (hfit : R / 50 < 65536) :
    read_resolution (set_resolution R regs) = R / 50 := by
  unfold read_resolution set_resolution regRead regWrite
  simp only [RESOLUTION_H, RESOLUTION_L]
  norm_num
  rw [shiftLeft8_lor_eq_add _ _ (by omega)]
  omega

/-- Witness for C7 at the configured resolution 16000, which reads back
as 320. -/
theorem C7_resolution_roundtrip_witness :
    (50 ∣ RESOLUTION ∧ RESOLUTION / 50 < 65536) ∧
    read_resolution (set_resolution RESOLUTION (fun _ => 0)) = RESOLUTION / 50 :=
  ⟨⟨by decide, by decide⟩,
   C7_resolution_roundtrip RESOLUTION (fun _ => 0) (by decide) (by decide)⟩

/-- Claim C8: the SROM download transaction issues the firmware-load-burst
command with the write bit set and then, for an image of length L,
performs exactly 2L further trace events before the trailing delay: the L
byte exchanges carry exactly the L image bytes in their original order
(nothing omitted, batched, or reordered), and the event before each
exchange is the fixed 15 microsecond pacing delay. -/
theorem C8_srom_stream (data : List ℕ) :
    (srom_load_trace data
      = [BusEvent.select, BusEvent.delay_us T_NCS_SCLK,
         BusEvent.xfer (SROM_LOAD_BURST ||| 0x80)]
        ++ srom_burst_body data ++ [BusEvent.delay_us 15, BusEvent.deselect]) ∧
    (srom_burst_body data).filterMap xferByte = data ∧
    (srom_burst_body data).length = 2 * data.length ∧
    (∀ k, (srom_burst_body data)[2 * k]?
        = (data[k]?).map (fun _ => BusEvent.delay_us 15) ∧
      (srom_burst_body data)[2 * k + 1]? = (data[k]?).map BusEvent.xfer) := by
  refine ⟨rfl, ?_, ?_, srom_burst_body_get data⟩
  · induction data with
    | nil => rfl
    | cons b rest ih => simp [srom_burst_body, xferByte, List.filterMap_cons, ih]
  · induction data with
    | nil => rfl
    | cons b rest ih =>
      simp only [srom_burst_body, List.length_cons, ih]
      omega

/-- Claim C9: the raw deltas of a tick are added to exactly the
accumulator pair selected by the scroll flag; the other pair is left
unchanged. -/
theorem C9_scroll_routing (delta_x delta_y : ℤ) (s : AxesState) :
    ((update_axes delta_x delta_y true s).a2 = s.a2 + delta_x ∧
     (update_axes delta_x delta_y true s).a3 = s.a3 + delta_y ∧
     (update_axes delta_x delta_y true s).a0 = s.a0 ∧
     (update_axes delta_x delta_y true s).a1 = s.a1) ∧
    ((update_axes delta_x delta_y false s).a0 = s.a0 + delta_x ∧
     (update_axes delta_x delta_y false s).a1 = s.a1 + delta_y ∧
     (update_axes delta_x delta_y false s).a2 = s.a2 ∧
     (update_axes delta_x delta_y false s).a3 = s.a3) :=
  ⟨⟨rfl, rfl, rfl, rfl⟩, ⟨rfl, rfl, rfl, rfl⟩⟩

/-- Claim C10: after any `get_axes` call every stored residual scaled by
its sensitivity has magnitude below one output unit, and a second
`get_axes` with no intervening `update_axes` reports four zero deltas and
returns false. -/
theorem C10_residuals_subunit (s : AxesState) :
    |POINTER_SENSITIVITY * (get_axes s).state.a0| < 1 ∧
    |POINTER_SENSITIVITY * (get_axes s).state.a1| < 1 ∧
    |WHEEL_SENSITIVITY_X * (get_axes s).state.a2| < 1 ∧
    |WHEEL_SENSITIVITY_Y * (get_axes s).state.a3| < 1 ∧
    (get_axes (get_axes s).state).p0 = 0 ∧
    (get_axes (get_axes s).state).p1 = 0 ∧
    (get_axes (get_axes s).state).p2 = 0 ∧
    (get_axes (get_axes s).state).p3 = 0 ∧
    (get_axes (get_axes s).state).moved = false := by
  have hP : POINTER_SENSITIVITY ≠ 0 := by norm_num [POINTER_SENSITIVITY]
  have hWX : WHEEL_SENSITIVITY_X ≠ 0 := by norm_num [WHEEL_SENSITIVITY_X]
  have hWY : WHEEL_SENSITIVITY_Y ≠ 0 := by norm_num [WHEEL_SENSITIVITY_Y]
  have e0 : POINTER_SENSITIVITY * (get_axes s).state.a0
      = POINTER_SENSITIVITY * s.a0 - truncQ (POINTER_SENSITIVITY * s.a0) := by
    show POINTER_SENSITIVITY
        * ((POINTER_SENSITIVITY * s.a0 - truncQ (POINTER_SENSITIVITY * s.a0))
            / POINTER_SENSITIVITY) = _
    field_simp
  have e1 : POINTER_SENSITIVITY * (get_axes s).state.a1
      = -(POINTER_SENSITIVITY * (-s.a1) - truncQ (POINTER_SENSITIVITY * (-s.a1))) := by
    show POINTER_SENSITIVITY
        * (-((POINTER_SENSITIVITY * (-s.a1) - truncQ (POINTER_SENSITIVITY * (-s.a1)))
             / POINTER_SENSITIVITY)) = _
    field_simp
  have e2 : WHEEL_SENSITIVITY_X * (get_axes s).state.a2
      = WHEEL_SENSITIVITY_X * s.a2 - truncQ (WHEEL_SENSITIVITY_X * s.a2) := by
    show WHEEL_SENSITIVITY_X
        * ((WHEEL_SENSITIVITY_X * s.a2 - truncQ (WHEEL_SENSITIVITY_X * s.a2))
            / WHEEL_SENSITIVITY_X) = _
    field_simp
  have e3 : WHEEL_SENSITIVITY_Y * (get_axes s).state.a3
      = WHEEL_SENSITIVITY_Y * s.a3 - truncQ (WHEEL_SENSITIVITY_Y * s.a3) := by
    show WHEEL_SENSITIVITY_Y
        * ((WHEEL_SENSITIVITY_Y * s.a3 - truncQ (WHEEL_SENSITIVITY_Y * s.a3))
            / WHEEL_SENSITIVITY_Y) = _
    field_simp
  have b0 : |POINTER_SENSITIVITY * (get_axes s).state.a0| < 1 := by
    rw [e0]; exact abs_sub_truncQ_lt_one _
  have b1 : |POINTER_SENSITIVITY * (get_axes s).state.a1| < 1 := by
    rw [e1, abs_neg]; exact abs_sub_truncQ_lt_one _
  have b2 : |WHEEL_SENSITIVITY_X * (get_axes s).state.a2| < 1 := by
    rw [e2]; exact abs_sub_truncQ_lt_one _
  have b3 : |WHEEL_SENSITIVITY_Y * (get_axes s).state.a3| < 1 := by
    rw [e3]; exact abs_sub_truncQ_lt_one _
  have z0 : truncQ (POINTER_SENSITIVITY * (get_axes s).state.a0) = 0 :=
    truncQ_eq_zero b0
  have z1 : truncQ (POINTER_SENSITIVITY * (-(get_axes s).state.a1)) = 0 := by
    apply truncQ_eq_zero
    rw [mul_neg, abs_neg]
    exact b1
  have z2 : truncQ (WHEEL_SENSITIVITY_X * (get_axes s).state.a2) = 0 :=
    truncQ_eq_zero b2
  have z3 : truncQ (WHEEL_SENSITIVITY_Y * (get_axes s).state.a3) = 0 :=
    truncQ_eq_zero b3
  refine ⟨b0, b1, b2, b3, ?_, ?_, ?_, ?_, ?_⟩
  · show toInt16 (truncQ (POINTER_SENSITIVITY * (get_axes s).state.a0)) = 0
    rw [z0]; decide
  · show toInt16 (truncQ (POINTER_SENSITIVITY * (-(get_axes s).state.a1))) = 0
    rw [z1]; decide
  · show toInt16 (truncQ (WHEEL_SENSITIVITY_X * (get_axes s).state.a2)) = 0
    rw [z2]; decide
  · show toInt16 (truncQ (WHEEL_SENSITIVITY_Y * (get_axes s).state.a3)) = 0
    rw [z3]; decide
  · show ((toInt16 (truncQ (POINTER_SENSITIVITY * (get_axes s).state.a0)) != 0) ||
          (toInt16 (truncQ (POINTER_SENSITIVITY * (-(get_axes s).state.a1))) != 0) ||
          (toInt16 (truncQ (WHEEL_SENSITIVITY_X * (get_axes s).state.a2)) != 0) ||
          (toInt16 (truncQ (WHEEL_SENSITIVITY_Y * (get_axes s).state.a3)) != 0)) = false
    rw [z0, z1, z2, z3]
    decide
